import Mathlib

/-!
Shallow embedding of the attribute-driven DOM controllers of the
persik-design repository: SwitchController, ToggleGroup, BreakpointMover
and SetStateController, together with their attribute parsers.

DOM nodes are modelled as natural numbers.  JavaScript strings are
modelled as lists of characters (`JStr`), so that the index-based string
operations of the source (`indexOf`, `slice`, `split`) have direct,
provable counterparts.  Class state is a Boolean predicate on
(node, class-name) pairs.  The external smooth-scroll collaborator is
modelled by recording the calls made to it.
-/

/-- A JavaScript string, as a list of characters. -/
abbrev JStr := List Char

/-- JavaScript `String.prototype.split` with a single-character separator:
keeps empty segments, `split` of the empty string is `[""]`. -/
def splitOnChar (sep : Char) : JStr → List JStr
  | [] => [[]]
  | c :: rest =>
    let r := splitOnChar sep rest
    if c = sep then [] :: r
    else
      match r with
      | [] => [[c]]
      | h :: t => (c :: h) :: t

/-- `splitOnChar` never returns the empty list. -/
theorem splitOnChar_ne_nil (sep : Char) (s : JStr) : splitOnChar sep s ≠ [] := by
  cases s with
  | nil => simp [splitOnChar]
  | cons c rest =>
    simp only [splitOnChar]
    split
    · simp
    · cases h : splitOnChar sep rest <;> simp

/-- Splitting a string with no separator yields the single whole segment. -/
theorem splitOnChar_no_sep (sep : Char) (s : JStr) (h : sep ∉ s) :
    splitOnChar sep s = [s] := by
  induction s with
  | nil => rfl
  | cons c rest ih =>
    simp only [List.mem_cons, not_or] at h
    have hc : ¬ c = sep := fun hc => h.1 hc.symm
    simp only [splitOnChar, if_neg hc, ih h.2]

/-- Splitting at the first separator occurrence peels off the prefix. -/
theorem splitOnChar_append (sep : Char) (a b : JStr) (h : sep ∉ a) :
    splitOnChar sep (a ++ sep :: b) = a :: splitOnChar sep b := by
  induction a with
  | nil => simp [splitOnChar]
  | cons c rest ih =>
    simp only [List.mem_cons, not_or] at h
    have hc : ¬ c = sep := fun hc => h.1 hc.symm
    simp only [List.cons_append, splitOnChar, if_neg hc]
    rw [show rest.append (sep :: b) = rest ++ sep :: b from rfl, ih h.2]

/-- Class state of the page: which node carries which class name. -/
abbrev Dom := Nat → JStr → Bool

/-- `el.classList.add(c)`. -/
def addClass (dom : Dom) (el : Nat) (c : JStr) : Dom :=
  fun e k => if e = el ∧ k = c then true else dom e k

/-- `el.classList.remove(c)`. -/
def removeClass (dom : Dom) (el : Nat) (c : JStr) : Dom :=
  fun e k => if e = el ∧ k = c then false else dom e k

/-! ## SwitchController -/

/-- Calls observed on the external smooth-scroll collaborator (`lenis`). -/
inductive ScrollCall where
  | start : ScrollCall
  | stop : ScrollCall
deriving DecidableEq, Repr

/-- A SwitchController rule.  `target` is `none` when the selector did not
resolve; `lock` is `none` when the property is absent (undefined). -/
structure SwitchRule where
  target : Option Nat
  className : JStr
  action : JStr
  lock : Option JStr
deriving Repr

/-- JavaScript truthiness of a possibly-undefined string: `undefined` and
the empty string are falsy. -/
def jsTruthy : Option JStr → Bool
  | none => false
  | some s => s ≠ []

/-- `SwitchController.toggle(rule)`: returns the updated class state and
the list of calls made to the scroll collaborator. -/
def SwitchController.toggle (dom : Dom) (rule : SwitchRule) :
    Dom × List ScrollCall :=
  match rule.target with
  | none => (dom, [])
  | some tgt =>
    if rule.action = "on".toList then
      let dom1 := addClass dom tgt rule.className
      if jsTruthy rule.lock ∧ rule.lock = some "true".toList then
        (dom1, [ScrollCall.stop])
      else (dom1, [])
    else
      let dom1 := removeClass dom tgt rule.className
      if jsTruthy rule.lock ∧ rule.lock = some "false".toList then
        (dom1, [ScrollCall.start])
      else (dom1, [])

/-- Last-entry-wins lookup, the semantics of `Object.fromEntries` followed
by property access. -/
def lookupEntries {α : Type} (l : List (JStr × α)) (k : JStr) : Option α :=
  l.foldl (fun acc p => if p.1 = k then some p.2 else acc) none

/-- One segment of SwitchController.parseConfig: split at the FIRST `:`
(`indexOf` plus two `slice` calls; an absent `:` gives `indexOf = -1`, so
the key is the segment without its last character and the value the whole
segment, faithful to `slice(0,-1)` and `slice(0)`). -/
def switchSplitPair (p : JStr) : JStr × JStr :=
  match p.findIdx? (· = ':') with
  | some i => (p.take i, p.drop (i + 1))
  | none => (p.take (p.length - 1), p)

/-- SwitchController.parseConfig as a key-to-value lookup. -/
def parseConfigSwitch (s : JStr) (k : JStr) : Option JStr :=
  lookupEntries ((splitOnChar ';' s).map switchSplitPair) k

/-- One segment of the ToggleGroup parseConfig: `p.split(":")` and then
`Object.fromEntries` keeps fields 0 and 1 only; a missing second field is
`undefined` (`none`). -/
def toggleSplitPair (p : JStr) : JStr × Option JStr :=
  let parts := splitOnChar ':' p
  (parts.headD [], parts.get? 1)

/-- ToggleGroup.parseConfig as a key-to-value lookup; the value is
`undefined` (`none`) when the segment had no `:`. -/
def parseConfigToggle (s : JStr) (k : JStr) : Option (Option JStr) :=
  lookupEntries ((splitOnChar ';' s).map toggleSplitPair) k

/-- BreakpointMover.parseConfig, textually identical to the ToggleGroup
one (`str.split(";").map((p) => p.split(":"))`). -/
def parseConfigMove (s : JStr) (k : JStr) : Option (Option JStr) :=
  lookupEntries ((splitOnChar ';' s).map toggleSplitPair) k

/-- A SwitchController rule as built by `createControllerRules` from a
parsed config; `resolve` stands for `document.querySelector` (applied to a
possibly-undefined selector). -/
def createSwitchRule (resolve : Option JStr → Option Nat)
    (cfg : JStr → Option JStr) : SwitchRule :=
  { target := resolve (cfg "target".toList)
    className :=
      match cfg "class".toList with
      | some c => if c = [] then "_is-active".toList else c
      | none => "_is-active".toList
    action := if cfg "action".toList = some "off".toList
              then "off".toList else "on".toList
    lock := some (if cfg "lock".toList = some "true".toList
                  then "true".toList else "false".toList) }

/-! ## ToggleGroup -/

/-- A ToggleGroup rule. -/
structure ToggleRule where
  element : Nat
  group : JStr
  className : JStr
deriving Repr

/-- `ToggleGroup.mapGroups`: group name to the list of rules pushed in
source order. -/
def ToggleGroup.mapGroups (rules : List ToggleRule) : JStr → List ToggleRule :=
  rules.foldl (fun m r => fun g => if g = r.group then m g ++ [r] else m g)
    (fun _ => [])

/-- `ToggleGroup.toggle(rule)`: read the prior active state, remove the
class from every rule of the group, then re-add it to the clicked element
only if it was not previously active. -/
def ToggleGroup.toggle (rules : List ToggleRule) (dom : Dom)
    (rule : ToggleRule) : Dom :=
  let group := ToggleGroup.mapGroups rules rule.group
  let isActive := dom rule.element rule.className
  let dom1 := group.foldl (fun d r => removeClass d r.element r.className) dom
  if isActive = false then addClass dom1 rule.element rule.className else dom1

/-- mapGroups agrees with filtering the rule list by group name. -/
theorem mapGroups_eq_filter (rules : List ToggleRule) (g : JStr) :
    ToggleGroup.mapGroups rules g = rules.filter (fun r => r.group = g) := by
  suffices h : ∀ (acc : JStr → List ToggleRule),
      (rules.foldl (fun m r => fun g => if g = r.group then m g ++ [r] else m g)
        acc) g = acc g ++ rules.filter (fun r => r.group = g) by
    simpa using h (fun _ => [])
  induction rules with
  | nil => intro acc; simp
  | cons r rest ih =>
    intro acc
    simp only [List.foldl_cons, ih, List.filter_cons]
    by_cases hg : r.group = g
    · simp [hg]
    · have : ¬ g = r.group := fun h => hg h.symm
      simp [this, hg]

/-- The removal pass never turns a class on. -/
theorem removeFold_preserves_false (l : List ToggleRule) (dom : Dom)
    (e : Nat) (c : JStr) (h : dom e c = false) :
    (l.foldl (fun d r2 => removeClass d r2.element r2.className) dom) e c
      = false := by
  induction l generalizing dom with
  | nil => exact h
  | cons x xs ih =>
    simp only [List.foldl_cons]
    apply ih
    simp only [removeClass]
    split
    · rfl
    · exact h

/-- After the removal pass over a rule list, every pair named by a rule of
the list is inactive. -/
theorem removeFold_mem (l : List ToggleRule) (dom : Dom) (r : ToggleRule)
    (hr : r ∈ l) :
    (l.foldl (fun d r2 => removeClass d r2.element r2.className) dom)
      r.element r.className = false := by
  induction l generalizing dom with
  | nil => cases hr
  | cons r0 rest ih =>
    rcases List.mem_cons.mp hr with h0 | h0
    · subst h0
      simp only [List.foldl_cons]
      apply removeFold_preserves_false
      simp [removeClass]
    · simp only [List.foldl_cons]
      exact ih _ h0

/-- The removal pass leaves pairs named by no rule of the list unchanged. -/
theorem removeFold_not_mem (l : List ToggleRule) (dom : Dom) (e : Nat)
    (c : JStr) (h : ∀ r ∈ l, ¬ (r.element = e ∧ r.className = c)) :
    (l.foldl (fun d r2 => removeClass d r2.element r2.className) dom) e c
      = dom e c := by
  induction l generalizing dom with
  | nil => rfl
  | cons r0 rest ih =>
    simp only [List.foldl_cons]
    rw [ih _ (fun r hr => h r (List.mem_cons_of_mem _ hr))]
    have h0 : ¬ (e = r0.element ∧ c = r0.className) := by
      intro hh
      exact h r0 (List.mem_cons_self _ _) ⟨hh.1.symm, hh.2.symm⟩
    simp [removeClass, h0]

/-! ## BreakpointMover -/

/-- A BreakpointMover rule; `fromEl`/`toEl` are the `from`/`to` container
nodes (`from` is a Lean keyword). -/
structure MoveRule where
  element : Nat
  fromEl : Nat
  toEl : Nat
deriving Repr

/-- Child lists of the page: container node to ordered children. -/
abbrev ChildMap := Nat → List Nat

/-- `container.append(el)`: the element leaves its current parent and
becomes the last child of `container`. -/
def appendChild (tree : ChildMap) (container el : Nat) : ChildMap :=
  fun c =>
    let removed := (tree c).filter (fun x => x ≠ el)
    if c = container then removed ++ [el] else removed

/-- `BreakpointMover.handle(rule, e)`: place the element in `to` when the
media query matches and in `from` otherwise.  `init` runs this once with
the current value and again on every change event. -/
def BreakpointMover.handle (tree : ChildMap) (rule : MoveRule)
    (mqMatches : Bool) : ChildMap :=
  if mqMatches then appendChild tree rule.toEl rule.element
  else appendChild tree rule.fromEl rule.element

/-! ## SetStateController -/

/-- A parsed `data-set-state` directive. -/
structure SetStateDirective where
  selector : JStr
  className : JStr
  outsideReset : Bool
deriving Repr, DecidableEq

/-- Whitespace removed by `String.prototype.trim` (the ASCII cases). -/
def isJsWhitespace (c : Char) : Bool :=
  c = ' ' || c = '\t' || c = '\n' || c = '\r' || c = '\x0b' || c = '\x0c'

/-- JavaScript `trim`. -/
def jsTrim (s : JStr) : JStr :=
  ((s.dropWhile isJsWhitespace).reverse.dropWhile isJsWhitespace).reverse

/-- JavaScript `toLowerCase` (character-wise). -/
def jsToLower (s : JStr) : JStr := s.map Char.toLower

/-- `SetStateParser.parse`: split on `,`, trim each part, DROP empty
parts, then read selector, className and outsideReset positionally from
the surviving parts. -/
def SetStateParser.parse (raw : JStr) : Option SetStateDirective :=
  if raw = [] then none
  else
    let parts := ((splitOnChar ',' raw).map jsTrim).filter (fun p => p ≠ [])
    match parts with
    | [] => none
    | selector :: rest =>
      let className :=
        match rest.get? 0 with
        | some c => if c ≠ [] then c else "_is-active".toList
        | none => "_is-active".toList
      let outsideReset :=
        match rest.get? 1 with
        | some p3 =>
          let l := jsToLower p3
          l = "true".toList || l = "1".toList || l = "yes".toList
        | none => false
      some { selector := selector, className := className,
             outsideReset := outsideReset }

/-- A `SetStateAction` object; `target` is the mutable cached node. -/
structure SetStateAction where
  selector : JStr
  className : JStr
  outsideReset : Bool
  target : Option Nat
deriving Repr

/-- The static page environment seen by SetStateController: document
membership, selector resolution, subtree containment and the trigger
attribute contents. -/
structure SetStateEnv where
  doc : Nat → Bool
  query : JStr → Option Nat
  nodeContains : Nat → Nat → Bool
  attr : Nat → Option JStr

/-- The mutable state of a SetStateController together with the class
state of the page.  Actions live in a heap addressed by creation index so
that the caches share one mutable object per action, as in the source. -/
structure SetStateSt where
  classes : Dom
  heap : Nat → Option SetStateAction
  nextId : Nat
  cache : Nat → Option Nat
  byTarget : Nat → List Nat
  outsideActive : List Nat
  suppress : List Nat

/-- `Set.prototype.add`: append only when absent. -/
def setAdd (l : List Nat) (x : Nat) : List Nat := if x ∈ l then l else l ++ [x]

/-- `Set.prototype.delete`. -/
def setDelete (l : List Nat) (x : Nat) : List Nat := l.filter (fun y => y ≠ x)

/-- `SetStateAction.resolveTarget`: return the cached node while it is
still in the document, otherwise run the selector query again and cache
the result. -/
def SetStateAction.resolveTarget (env : SetStateEnv) (st : SetStateSt)
    (aid : Nat) : Option Nat × SetStateSt :=
  match st.heap aid with
  | none => (none, st)
  | some a =>
    match a.target with
    | some t =>
      if env.doc t then (some t, st)
      else
        let t2 := env.query a.selector
        (t2, { st with heap := fun i =>
          if i = aid then some { a with target := t2 } else st.heap i })
    | none =>
      let t2 := env.query a.selector
      (t2, { st with heap := fun i =>
        if i = aid then some { a with target := t2 } else st.heap i })

/-- `SetStateAction.apply`: resolve and add the class; false when the
selector does not resolve. -/
def SetStateAction.apply (env : SetStateEnv) (st : SetStateSt) (aid : Nat) :
    Bool × SetStateSt :=
  match SetStateAction.resolveTarget env st aid with
  | (none, st1) => (false, st1)
  | (some t, st1) =>
    match st1.heap aid with
    | none => (false, st1)
    | some a => (true, { st1 with classes := addClass st1.classes t a.className })

/-- `SetStateAction.reset`: resolve and remove the class. -/
def SetStateAction.reset (env : SetStateEnv) (st : SetStateSt) (aid : Nat) :
    Bool × SetStateSt :=
  match SetStateAction.resolveTarget env st aid with
  | (none, st1) => (false, st1)
  | (some t, st1) =>
    match st1.heap aid with
    | none => (false, st1)
    | some a => (true, { st1 with classes := removeClass st1.classes t a.className })

/-- `SetStateAction.isApplied`: resolve and read the class bit. -/
def SetStateAction.isApplied (env : SetStateEnv) (st : SetStateSt) (aid : Nat) :
    Bool × SetStateSt :=
  match SetStateAction.resolveTarget env st aid with
  | (none, st1) => (false, st1)
  | (some t, st1) =>
    match st1.heap aid with
    | none => (false, st1)
    | some a => (st1.classes t a.className, st1)

/-- `SetStateController._getOrCreateAction`: cache hit returns the stored
action id untouched; otherwise parse the attribute, allocate the action,
cache it, index it by resolved target and revive the outside-active flag
when the class is already applied. -/
def SetStateController.getOrCreateAction (env : SetStateEnv) (st : SetStateSt)
    (trigger : Nat) : Option Nat × SetStateSt :=
  match st.cache trigger with
  | some aid => (some aid, st)
  | none =>
    let raw := (env.attr trigger).getD []
    match SetStateParser.parse raw with
    | none => (none, st)
    | some d =>
      let aid := st.nextId
      let a : SetStateAction :=
        { selector := d.selector, className := d.className,
          outsideReset := d.outsideReset, target := none }
      let st1 := { st with
        heap := fun i => if i = aid then some a else st.heap i,
        nextId := st.nextId + 1,
        cache := fun t => if t = trigger then some aid else st.cache t }
      match SetStateAction.resolveTarget env st1 aid with
      | (none, st2) => (some aid, st2)
      | (some tgt, st2) =>
        let st3 := { st2 with byTarget := fun t =>
          if t = tgt then st2.byTarget tgt ++ [aid] else st2.byTarget t }
        match SetStateAction.isApplied env st3 aid with
        | (app, st4) =>
          if d.outsideReset && app then
            (some aid, { st4 with outsideActive := setAdd st4.outsideActive tgt })
          else (some aid, st4)

/-- `SetStateController._resetByTarget`: reset every action indexed under
the node. -/
def SetStateController.resetByTarget (env : SetStateEnv) (st : SetStateSt)
    (tgt : Nat) : SetStateSt :=
  (st.byTarget tgt).foldl (fun s aid => (SetStateAction.reset env s aid).2) st

/-- Branch 1 of `_onDocClick`: a trigger ancestor matched. -/
def SetStateController.handleTrigger (env : SetStateEnv) (st : SetStateSt)
    (trigger : Nat) : SetStateSt :=
  match SetStateController.getOrCreateAction env st trigger with
  | (none, st1) => st1
  | (some aid, st1) =>
    match SetStateAction.apply env st1 aid with
    | (applied, st2) =>
      let oReset := match st2.heap aid with
                    | some a => a.outsideReset
                    | none => false
      if applied && oReset then
        match SetStateAction.resolveTarget env st2 aid with
        | (some tgt, st3) =>
          { st3 with outsideActive := setAdd st3.outsideActive tgt,
                     suppress := setAdd st3.suppress tgt }
        | (none, st3) => st3
      else st2

/-- Branch 2 of `_onDocClick`: a reset ancestor matched.  The armed set is
snapshotted after deleting the reset node itself, then every armed target
containing the reset node is reset and disarmed. -/
def SetStateController.handleReset (env : SetStateEnv) (st : SetStateSt)
    (resetEl : Nat) : SetStateSt :=
  let st1 := SetStateController.resetByTarget env st resetEl
  let st2 := { st1 with outsideActive := setDelete st1.outsideActive resetEl }
  st2.outsideActive.foldl
    (fun s t =>
      if env.nodeContains t resetEl then
        let s1 := SetStateController.resetByTarget env s t
        { s1 with outsideActive := setDelete s1.outsideActive t }
      else s) st2

/-- Branch 3 of `_onDocClick`: outside-click scanning over a snapshot of
the armed set, skipping suppressed targets. -/
def SetStateController.handleOutside (env : SetStateEnv) (st : SetStateSt)
    (node : Nat) : SetStateSt :=
  if st.outsideActive = [] then st
  else
    st.outsideActive.foldl
      (fun s tgt =>
        if tgt ∈ s.suppress then s
        else if env.nodeContains tgt node then s
        else
          let s1 := SetStateController.resetByTarget env s tgt
          { s1 with outsideActive := setDelete s1.outsideActive tgt }) st

/-- A document click, with the results of the two `closest` walks from the
event target. -/
structure ClickEvent where
  targetNode : Nat
  closestTrigger : Option Nat
  closestReset : Option Nat

/-- `SetStateController._onDocClick`: trigger, then explicit reset, then
outside scanning, with early returns. -/
def SetStateController.onDocClick (env : SetStateEnv) (st : SetStateSt)
    (e : ClickEvent) : SetStateSt :=
  match e.closestTrigger with
  | some trigger => SetStateController.handleTrigger env st trigger
  | none =>
    match e.closestReset with
    | some resetEl => SetStateController.handleReset env st resetEl
    | none => SetStateController.handleOutside env st e.targetNode

/-- The zero-delay timers scheduled during a click all fire before the
next click is dispatched, emptying the suppression set. -/
def SetStateController.timersFire (st : SetStateSt) : SetStateSt :=
  { st with suppress := [] }

/-- A freshly constructed controller over a page with class state
`classes0`. -/
def SetStateController.initState (classes0 : Dom) : SetStateSt :=
  { classes := classes0, heap := fun _ => none, nextId := 0,
    cache := fun _ => none, byTarget := fun _ => [],
    outsideActive := [], suppress := [] }

/-! ## Claims about SwitchController -/

/-- Claim C1, counterexample: a rule with an absent target, action `on`
and lock `"true"` makes NO call to the scroll collaborator, although the
claim asserts that `stop()` still fires. -/
theorem claim1_cex_absent_target_lock_does_not_fire :
    (SwitchController.toggle (fun _ _ => false)
      { target := none, className := "_is-active".toList,
        action := "on".toList, lock := some "true".toList }).2 = []
    ∧ ScrollCall.stop ∉ (SwitchController.toggle (fun _ _ => false)
      { target := none, className := "_is-active".toList,
        action := "on".toList, lock := some "true".toList }).2 := by
  constructor
  · rfl
  · simp [SwitchController.toggle]

/-- Claim C1 (amended): when the target is absent, toggle raises no error
and is a complete no-op: no class mutation and no scroll-collaborator
call, whatever the action and lock values. -/
theorem claim1_amended_absent_target_full_noop (dom : Dom)
    (rule : SwitchRule) (h : rule.target = none) :
    SwitchController.toggle dom rule = (dom, []) := by
  unfold SwitchController.toggle
  rw [h]

/-- Witness for the amended claim C1 at a concrete rule. -/
theorem claim1_amended_witness :
    SwitchController.toggle (fun _ _ => false)
      { target := none, className := "x".toList,
        action := "off".toList, lock := some "false".toList }
      = ((fun _ _ => false), []) :=
  claim1_amended_absent_target_full_noop (fun _ _ => false) _ rfl

/-- Claim C6: with a present target, `stop()` fires exactly for
action `on` with lock `"true"`, `start()` exactly for action `off` with
lock `"false"`; and a rule built from an attribute without a `lock` key
gets lock `"false"`, hence calls neither. -/
theorem claim6_switch_lock_coupling (dom : Dom) (rule : SwitchRule) (t : Nat)
    (ht : rule.target = some t)
    (ha : rule.action = "on".toList ∨ rule.action = "off".toList) :
    (ScrollCall.stop ∈ (SwitchController.toggle dom rule).2 ↔
      (rule.action = "on".toList ∧ rule.lock = some "true".toList))
    ∧ (ScrollCall.start ∈ (SwitchController.toggle dom rule).2 ↔
      (rule.action = "off".toList ∧ rule.lock = some "false".toList))
    ∧ (∀ (resolve : Option JStr → Option Nat) (cfg : JStr → Option JStr),
        cfg "lock".toList = none →
        (createSwitchRule resolve cfg).lock = some "false".toList) := by
  obtain ⟨rt, rc, ra, rl⟩ := rule
  have ht2 : rt = some t := ht
  subst ht2
  refine ⟨?_, ?_, ?_⟩
  · rcases ha with ha | ha <;> (have ha2 : ra = _ := ha; subst ha2)
    · by_cases hl : rl = some "true".toList
      · subst hl
        simp [SwitchController.toggle, jsTruthy]
      · have hl2 : ¬ rl = some ['t', 'r', 'u', 'e'] := hl
        simp [SwitchController.toggle, hl2]
    · by_cases hl : rl = some "false".toList
      · subst hl
        simp [SwitchController.toggle, jsTruthy]
      · have hl2 : ¬ rl = some ['f', 'a', 'l', 's', 'e'] := hl
        simp [SwitchController.toggle, hl2]
  · rcases ha with ha | ha <;> (have ha2 : ra = _ := ha; subst ha2)
    · by_cases hl : rl = some "true".toList
      · subst hl
        simp [SwitchController.toggle, jsTruthy]
      · have hl2 : ¬ rl = some ['t', 'r', 'u', 'e'] := hl
        simp [SwitchController.toggle, hl2]
    · by_cases hl : rl = some "false".toList
      · subst hl
        simp [SwitchController.toggle, jsTruthy]
      · have hl2 : ¬ rl = some ['f', 'a', 'l', 's', 'e'] := hl
        simp [SwitchController.toggle, hl2]
  · intro resolve cfg hc
    unfold createSwitchRule
    rw [hc]
    rfl

/-- Witness for claim C6 at a concrete rule with action on, lock true. -/
theorem claim6_witness :
    ScrollCall.stop ∈ (SwitchController.toggle (fun _ _ => false)
      { target := some 3, className := "x".toList,
        action := "on".toList, lock := some "true".toList }).2
    ∧ ScrollCall.start ∉ (SwitchController.toggle (fun _ _ => false)
      { target := some 3, className := "x".toList,
        action := "on".toList, lock := some "true".toList }).2 := by
  have h := claim6_switch_lock_coupling (fun _ _ => false)
    { target := some 3, className := "x".toList,
      action := "on".toList, lock := some "true".toList } 3 rfl (Or.inl rfl)
  exact ⟨h.1.mpr ⟨rfl, rfl⟩, fun hm => by
    have := h.2.1.mp hm
    exact absurd this.1 (by decide)⟩

/-! ## Claims about the rule parsers -/

/-- With no `:` in the key, the first `:` of a key-value segment sits at
index `k.length`. -/
theorem findIdx_first_colon (k v : JStr) (hk : ':' ∉ k) :
    (k ++ ':' :: v).findIdx? (· = ':') = some k.length := by
  induction k with
  | nil => simp [List.findIdx?_cons]
  | cons c rest ih =>
    simp only [List.mem_cons, not_or] at hk
    have hc : ¬ (c = ':') := fun h => hk.1 (h.symm ▸ rfl)
    simp only [List.cons_append, List.findIdx?_cons, decide_eq_true_eq,
      if_neg hc, List.findIdx?_succ, ih hk.2, Option.map_some', List.length_cons]

/-- The SwitchController segment splitter keeps the whole remainder after
the first colon. -/
theorem switchSplitPair_eq (k v : JStr) (hk : ':' ∉ k) :
    switchSplitPair (k ++ ':' :: v) = (k, v) := by
  unfold switchSplitPair
  rw [findIdx_first_colon k v hk]
  show ((k ++ ':' :: v).take k.length, (k ++ ':' :: v).drop (k.length + 1)) = (k, v)
  have hdrop : (k ++ ':' :: v).drop (k.length + 1)
      = ((k ++ ':' :: v).drop k.length).drop 1 := by
    rw [List.drop_drop, Nat.add_comm]
  rw [List.take_left, hdrop, List.drop_left]
  rfl

/-- The ToggleGroup/BreakpointMover segment splitter truncates the value
at the second colon. -/
theorem toggleSplitPair_eq (k v : JStr) (hk : ':' ∉ k) :
    toggleSplitPair (k ++ ':' :: v) =
      (k, (splitOnChar ':' v).get? 0) := by
  unfold toggleSplitPair
  rw [splitOnChar_append ':' k v hk]
  cases h : splitOnChar ':' v with
  | nil => exact absurd h (splitOnChar_ne_nil ':' v)
  | cons a t => simp

/-- Claim C2, counterexample: for the single-segment attribute value
`"from:a:b"`, the SwitchController parser keeps the whole remainder
`"a:b"`, but the ToggleGroup and BreakpointMover parsers keep only `"a"`,
dropping everything after the second colon — so they do not treat the
first colon as key/remainder separator as the claim states. -/
theorem claim2_cex_second_colon_truncated :
    parseConfigSwitch "from:a:b".toList "from".toList = some "a:b".toList
    ∧ parseConfigToggle "from:a:b".toList "from".toList = some (some "a".toList)
    ∧ parseConfigMove "from:a:b".toList "from".toList = some (some "a".toList)
    ∧ some "a".toList ≠ some "a:b".toList := by
  refine ⟨by decide, by decide, by decide, by decide⟩

/-- Claim C2 (amended): for a segment `k:v` (no `;` anywhere, no `:` in
`k`), the SwitchController parser maps `k` to the entire remainder `v`,
further colons included; the ToggleGroup and BreakpointMover parsers map
`k` to `v` only when `v` itself has no colon, and otherwise to the part
of `v` before its first colon. -/
theorem claim2_amended_parser_split (k v : JStr)
    (hk1 : ':' ∉ k) (hk2 : ';' ∉ k) (hv : ';' ∉ v) :
    parseConfigSwitch (k ++ ':' :: v) k = some v
    ∧ (':' ∉ v → parseConfigToggle (k ++ ':' :: v) k = some (some v))
    ∧ (∀ v1 v2, v = v1 ++ ':' :: v2 → ':' ∉ v1 →
        parseConfigToggle (k ++ ':' :: v) k = some (some v1)
        ∧ parseConfigMove (k ++ ':' :: v) k = some (some v1)) := by
  have hs : ';' ∉ (k ++ ':' :: v) := by
    intro hmem
    rcases List.mem_append.mp hmem with h | h
    · exact hk2 h
    · rcases List.mem_cons.mp h with h | h
      · exact absurd h (by decide)
      · exact hv h
  have hsplit : splitOnChar ';' (k ++ ':' :: v) = [k ++ ':' :: v] :=
    splitOnChar_no_sep ';' _ hs
  refine ⟨?_, ?_, ?_⟩
  · unfold parseConfigSwitch
    rw [hsplit]
    simp only [List.map_cons, List.map_nil, switchSplitPair_eq k v hk1]
    simp [lookupEntries]
  · intro hvc
    unfold parseConfigToggle
    rw [hsplit]
    simp only [List.map_cons, List.map_nil, toggleSplitPair_eq k v hk1]
    rw [splitOnChar_no_sep ':' v hvc]
    simp [lookupEntries]
  · intro v1 v2 hveq hv1
    subst hveq
    constructor
    · unfold parseConfigToggle
      rw [hsplit]
      simp only [List.map_cons, List.map_nil, toggleSplitPair_eq k _ hk1]
      rw [splitOnChar_append ':' v1 v2 hv1]
      simp [lookupEntries]
    · unfold parseConfigMove
      rw [hsplit]
      simp only [List.map_cons, List.map_nil, toggleSplitPair_eq k _ hk1]
      rw [splitOnChar_append ':' v1 v2 hv1]
      simp [lookupEntries]

/-- Witness for the amended claim C2 at the segment `group:a:b`. -/
theorem claim2_amended_witness :
    parseConfigSwitch "group:a:b".toList "group".toList = some "a:b".toList
    ∧ parseConfigToggle "group:a:b".toList "group".toList = some (some "a".toList)
    ∧ parseConfigMove "group:a:b".toList "group".toList = some (some "a".toList) := by
  have h := claim2_amended_parser_split "group".toList "a:b".toList
    (by decide) (by decide) (by decide)
  have h3 := h.2.2 "a".toList "b".toList (by decide) (by decide)
  exact ⟨h.1, h3.1, h3.2⟩

/-- Claim C10, counterexample: in `"#a,,yes"` the third comma-separated
component is the non-empty `"yes"`, whose lowercase form is in the
accepted set, yet the parser yields `outsideReset = false`, because empty
segments are dropped before positional indexing and `"yes"` becomes the
second surviving part (the className). -/
theorem claim10_cex_empty_segment_shifts :
    (splitOnChar ',' "#a,,yes".toList).get? 2 = some "yes".toList
    ∧ jsToLower "yes".toList = "yes".toList
    ∧ SetStateParser.parse "#a,,yes".toList =
        some { selector := "#a".toList, className := "yes".toList,
               outsideReset := false } := by
  refine ⟨by decide, by decide, by decide⟩

/-- Claim C10 (amended): outsideReset is true exactly when the trimmed,
empty-filtered comma-segment list has a third element whose lowercase form
is `true`, `1` or `yes`; empty or whitespace-only segments are dropped
first and shift later components leftward. -/
theorem claim10_amended_outsideReset (raw : JStr) (d : SetStateDirective)
    (h : SetStateParser.parse raw = some d) :
    d.outsideReset = true ↔
      ∃ p3, (((splitOnChar ',' raw).map jsTrim).filter (fun p => p ≠ [])).get? 2
              = some p3
        ∧ (jsToLower p3 = "true".toList ∨ jsToLower p3 = "1".toList
            ∨ jsToLower p3 = "yes".toList) := by
  unfold SetStateParser.parse at h
  by_cases hr : raw = []
  · rw [if_pos hr] at h
    cases h
  · rw [if_neg hr] at h
    cases hp : ((splitOnChar ',' raw).map jsTrim).filter (fun p => p ≠ []) with
    | nil =>
      rw [hp] at h
      cases h
    | cons sel rest =>
      rw [hp] at h
      have hd : d.outsideReset =
          (match rest.get? 1 with
            | some p3 => (decide (jsToLower p3 = "true".toList)
                || decide (jsToLower p3 = "1".toList)
                || decide (jsToLower p3 = "yes".toList))
            | none => false) := by
        injection h with h2
        rw [← h2]
      rw [hd]
      cases hq : rest.get? 1 with
      | none =>
        have hq2 : rest[1]? = (none : Option (List Char)) := by
          rw [← List.get?_eq_getElem?]; exact hq
        simp [hq2]
      | some p3 =>
        have hq2 : rest[1]? = some p3 := by
          rw [← List.get?_eq_getElem?]; exact hq
        simp [hq2, or_assoc]

/-- Witness for the amended claim C10 at `"#a,x,TRUE"`. -/
theorem claim10_amended_witness :
    ∃ p3, (((splitOnChar ',' "#a,x,TRUE".toList).map jsTrim).filter
            (fun p => p ≠ [])).get? 2 = some p3
      ∧ (jsToLower p3 = "true".toList ∨ jsToLower p3 = "1".toList
          ∨ jsToLower p3 = "yes".toList) :=
  (claim10_amended_outsideReset "#a,x,TRUE".toList
    { selector := "#a".toList, className := "x".toList, outsideReset := true }
    (by decide)).mp (by decide)

/-! ## Claim about ToggleGroup -/

/-- Claim C5: toggling an inactive rule leaves its element as the only one
in the group carrying its rule class; toggling an active rule clears the
whole group. -/
theorem claim5_toggleGroup_exclusive (rules : List ToggleRule) (dom : Dom)
    (r : ToggleRule) (hr : r ∈ rules) :
    r ∈ ToggleGroup.mapGroups rules r.group
    ∧ (dom r.element r.className = false →
        (ToggleGroup.toggle rules dom r) r.element r.className = true
        ∧ ∀ r2 ∈ ToggleGroup.mapGroups rules r.group,
            (ToggleGroup.toggle rules dom r) r2.element r2.className = true →
            r2.element = r.element)
    ∧ (dom r.element r.className = true →
        ∀ r2 ∈ ToggleGroup.mapGroups rules r.group,
          (ToggleGroup.toggle rules dom r) r2.element r2.className = false) := by
  refine ⟨?_, ?_, ?_⟩
  · rw [mapGroups_eq_filter]
    exact List.mem_filter.mpr ⟨hr, by simp⟩
  · intro h0
    unfold ToggleGroup.toggle
    rw [h0]
    constructor
    · simp [addClass]
    · intro r2 h2 hactive
      rw [if_pos rfl] at hactive
      by_cases he : r2.element = r.element ∧ r2.className = r.className
      · exact he.1
      · exfalso
        unfold addClass at hactive
        rw [if_neg he] at hactive
        rw [removeFold_mem _ _ _ h2] at hactive
        cases hactive
  · intro h0
    intro r2 h2
    unfold ToggleGroup.toggle
    rw [h0, if_neg (by decide)]
    exact removeFold_mem _ _ _ h2

/-- Witness for claim C5 in a two-rule group. -/
theorem claim5_witness :
    (ToggleGroup.toggle
        [ { element := 1, group := "g".toList, className := "a".toList },
          { element := 2, group := "g".toList, className := "a".toList } ]
        (fun _ _ => false)
        { element := 1, group := "g".toList, className := "a".toList })
      1 "a".toList = true := by
  have h := claim5_toggleGroup_exclusive
    [ { element := 1, group := "g".toList, className := "a".toList },
      { element := 2, group := "g".toList, className := "a".toList } ]
    (fun _ _ => false)
    { element := 1, group := "g".toList, className := "a".toList }
    (by simp)
  exact (h.2.1 rfl).1

/-! ## Claim about BreakpointMover -/

/-- The moved element is a child of exactly the container appended to. -/
theorem mem_appendChild (tree : ChildMap) (c0 el c : Nat) :
    el ∈ (appendChild tree c0 el) c ↔ c = c0 := by
  unfold appendChild
  have hf : el ∉ (tree c).filter (fun x => x ≠ el) := by
    intro hmem
    have := (List.mem_filter.mp hmem).2
    simp at this
  by_cases hc : c = c0
  · simp [hc, hf]
  · simp [hc, hf]

/-- Occurrence count of the moved element after an append. -/
theorem count_appendChild (tree : ChildMap) (c0 el c : Nat) :
    ((appendChild tree c0 el) c).count el = if c = c0 then 1 else 0 := by
  have hf : el ∉ (tree c).filter (fun x => x ≠ el) := by
    intro hmem
    have := (List.mem_filter.mp hmem).2
    simp at this
  have hcount : ((tree c).filter (fun x => x ≠ el)).count el = 0 :=
    List.count_eq_zero.mpr hf
  unfold appendChild
  by_cases hc : c = c0
  · subst hc
    rw [if_pos rfl, if_pos rfl, List.count_append, hcount]
    simp
  · rw [if_neg hc, if_neg hc, hcount]

/-- Appending the same element to the same container twice is the same as
doing it once. -/
theorem appendChild_idem (tree : ChildMap) (c0 el : Nat) :
    appendChild (appendChild tree c0 el) c0 el = appendChild tree c0 el := by
  funext c
  unfold appendChild
  by_cases hc : c = c0
  · subst hc
    rw [if_pos rfl, if_pos rfl, List.filter_append, List.filter_filter]
    simp
  · rw [if_neg hc, if_neg hc, List.filter_filter]
    simp

/-- Claim C7: the placement handler (used by `init` immediately and by
every change notification) puts the element in `to` exactly when the
media query matches and in `from` exactly when it does not, keeps a single
occurrence of the element, and repeating the handler with the same
predicate value changes nothing. -/
theorem claim7_breakpointMover_placement (tree : ChildMap) (rule : MoveRule)
    (m : Bool) (hft : rule.fromEl ≠ rule.toEl) :
    (rule.element ∈ (BreakpointMover.handle tree rule m) rule.toEl ↔ m = true)
    ∧ (rule.element ∈ (BreakpointMover.handle tree rule m) rule.fromEl ↔ m = false)
    ∧ (∀ c, ((BreakpointMover.handle tree rule m) c).count rule.element
        = if c = (if m then rule.toEl else rule.fromEl) then 1 else 0)
    ∧ BreakpointMover.handle (BreakpointMover.handle tree rule m) rule m
        = BreakpointMover.handle tree rule m := by
  cases m with
  | true =>
    unfold BreakpointMover.handle
    rw [if_pos rfl, if_pos rfl, if_pos rfl]
    refine ⟨?_, ?_, ?_, ?_⟩
    · simp [mem_appendChild]
    · rw [mem_appendChild]
      simp [hft]
    · intro c
      exact count_appendChild tree rule.toEl rule.element c
    · exact appendChild_idem tree rule.toEl rule.element
  | false =>
    unfold BreakpointMover.handle
    rw [if_neg (by decide), if_neg (by decide), if_neg (by decide)]
    refine ⟨?_, ?_, ?_, ?_⟩
    · rw [mem_appendChild]
      have hne : ¬ rule.toEl = rule.fromEl := fun h => hft h.symm
      simp [hne]
    · simp [mem_appendChild]
    · intro c
      exact count_appendChild tree rule.fromEl rule.element c
    · exact appendChild_idem tree rule.fromEl rule.element

/-- Witness for claim C7 at a concrete rule with the query matching. -/
theorem claim7_witness :
    5 ∈ (BreakpointMover.handle (fun _ => [])
          { element := 5, fromEl := 1, toEl := 2 } true) 2
    ∧ 5 ∉ (BreakpointMover.handle (fun _ => [])
          { element := 5, fromEl := 1, toEl := 2 } true) 1 := by
  have h := claim7_breakpointMover_placement (fun _ => [])
    { element := 5, fromEl := 1, toEl := 2 } true (by decide)
  exact ⟨h.1.mpr rfl, fun hm => by cases h.2.1.mp hm⟩

/-! ## Claims about SetStateController -/

/-- Claim C8: per click the three categories are checked in the fixed
order trigger, explicit reset, outside scan, and the first match
short-circuits: a trigger match makes the whole click equal to the
trigger branch alone, and so on. -/
theorem claim8_dispatch_order (env : SetStateEnv) (st : SetStateSt)
    (e : ClickEvent) :
    (∀ tr, e.closestTrigger = some tr →
        SetStateController.onDocClick env st e
          = SetStateController.handleTrigger env st tr)
    ∧ (∀ rEl, e.closestTrigger = none → e.closestReset = some rEl →
        SetStateController.onDocClick env st e
          = SetStateController.handleReset env st rEl)
    ∧ (e.closestTrigger = none → e.closestReset = none →
        SetStateController.onDocClick env st e
          = SetStateController.handleOutside env st e.targetNode) := by
  refine ⟨?_, ?_, ?_⟩
  · intro tr h
    unfold SetStateController.onDocClick
    rw [h]
  · intro rEl h1 h2
    unfold SetStateController.onDocClick
    rw [h1, h2]
  · intro h1 h2
    unfold SetStateController.onDocClick
    rw [h1, h2]

/-- Witness for claim C8 on three concrete clicks. -/
theorem claim8_witness :
    SetStateController.onDocClick
        { doc := fun _ => false, query := fun _ => none,
          nodeContains := fun _ _ => false, attr := fun _ => none }
        (SetStateController.initState (fun _ _ => false))
        { targetNode := 0, closestTrigger := some 5, closestReset := none }
      = SetStateController.handleTrigger
        { doc := fun _ => false, query := fun _ => none,
          nodeContains := fun _ _ => false, attr := fun _ => none }
        (SetStateController.initState (fun _ _ => false)) 5
    ∧ SetStateController.onDocClick
        { doc := fun _ => false, query := fun _ => none,
          nodeContains := fun _ _ => false, attr := fun _ => none }
        (SetStateController.initState (fun _ _ => false))
        { targetNode := 0, closestTrigger := none, closestReset := some 7 }
      = SetStateController.handleReset
        { doc := fun _ => false, query := fun _ => none,
          nodeContains := fun _ _ => false, attr := fun _ => none }
        (SetStateController.initState (fun _ _ => false)) 7
    ∧ SetStateController.onDocClick
        { doc := fun _ => false, query := fun _ => none,
          nodeContains := fun _ _ => false, attr := fun _ => none }
        (SetStateController.initState (fun _ _ => false))
        { targetNode := 9, closestTrigger := none, closestReset := none }
      = SetStateController.handleOutside
        { doc := fun _ => false, query := fun _ => none,
          nodeContains := fun _ _ => false, attr := fun _ => none }
        (SetStateController.initState (fun _ _ => false)) 9 := by
  refine ⟨?_, ?_, ?_⟩
  · exact (claim8_dispatch_order _ _ _).1 5 rfl
  · exact (claim8_dispatch_order _ _ _).2.1 7 rfl rfl
  · exact (claim8_dispatch_order _ _ _).2.2 rfl rfl

/-- resolveTarget with a cached node still in the document returns it and
leaves the state untouched: no selector query is run. -/
theorem resolveTarget_hit (env : SetStateEnv) (st : SetStateSt) (aid : Nat)
    (a : SetStateAction) (t : Nat) (ha : st.heap aid = some a)
    (ht : a.target = some t) (hd : env.doc t = true) :
    SetStateAction.resolveTarget env st aid = (some t, st) := by
  simp [SetStateAction.resolveTarget, ha, ht, hd]

/-- resolveTarget with no cached node runs the selector query and caches
its result. -/
theorem resolveTarget_fresh (env : SetStateEnv) (st : SetStateSt) (aid : Nat)
    (a : SetStateAction) (ha : st.heap aid = some a) (ht : a.target = none) :
    SetStateAction.resolveTarget env st aid
      = (env.query a.selector,
         { st with heap := fun i =>
            if i = aid then some { a with target := env.query a.selector }
            else st.heap i }) := by
  simp [SetStateAction.resolveTarget, ha, ht]

/-- resolveTarget with a cached node that left the document re-runs the
selector query and caches its result. -/
theorem resolveTarget_detached (env : SetStateEnv) (st : SetStateSt)
    (aid : Nat) (a : SetStateAction) (t : Nat) (ha : st.heap aid = some a)
    (ht : a.target = some t) (hd : env.doc t = false) :
    SetStateAction.resolveTarget env st aid
      = (env.query a.selector,
         { st with heap := fun i =>
            if i = aid then some { a with target := env.query a.selector }
            else st.heap i }) := by
  simp [SetStateAction.resolveTarget, ha, ht, hd]

/-- resolveTarget only rewrites the heap: every other state component is
unchanged. -/
theorem resolveTarget_frame (env : SetStateEnv) (st : SetStateSt) (aid : Nat) :
    ((SetStateAction.resolveTarget env st aid).2).classes = st.classes
    ∧ ((SetStateAction.resolveTarget env st aid).2).outsideActive = st.outsideActive
    ∧ ((SetStateAction.resolveTarget env st aid).2).suppress = st.suppress
    ∧ ((SetStateAction.resolveTarget env st aid).2).byTarget = st.byTarget
    ∧ ((SetStateAction.resolveTarget env st aid).2).cache = st.cache
    ∧ ((SetStateAction.resolveTarget env st aid).2).nextId = st.nextId := by
  cases ha : st.heap aid with
  | none => simp [SetStateAction.resolveTarget, ha]
  | some a =>
    cases ht : a.target with
    | none => simp [SetStateAction.resolveTarget, ha, ht]
    | some t =>
      cases hd : env.doc t with
      | true => simp [SetStateAction.resolveTarget, ha, ht, hd]
      | false => simp [SetStateAction.resolveTarget, ha, ht, hd]

/-- A successful resolveTarget is idempotent: resolving again returns the
same node and does not change the state. -/
theorem resolveTarget_idem (env : SetStateEnv) (st st2 : SetStateSt)
    (aid t : Nat)
    (h : SetStateAction.resolveTarget env st aid = (some t, st2)) :
    SetStateAction.resolveTarget env st2 aid = (some t, st2) := by
  cases ha : st.heap aid with
  | none =>
    rw [SetStateAction.resolveTarget, ha] at h
    cases h
  | some a =>
    cases ht : a.target with
    | some t0 =>
      cases hd : env.doc t0 with
      | true =>
        rw [resolveTarget_hit env st aid a t0 ha ht hd] at h
        injection h with h1 h2
        injection h1 with h1
        subst h2
        rw [← h1]
        exact resolveTarget_hit env st aid a t0 ha ht hd
      | false =>
        rw [resolveTarget_detached env st aid a t0 ha ht hd] at h
        injection h with h1 h2
        have ha2 : st2.heap aid
            = some { a with target := env.query a.selector } := by
          rw [← h2]
          simp
        cases hd2 : env.doc t with
        | true =>
          exact resolveTarget_hit env st2 aid _ t ha2 (by simp [h1]) hd2
        | false =>
          rw [resolveTarget_detached env st2 aid _ t ha2 (by simp [h1]) hd2]
          refine Prod.ext ?_ ?_
          · simp [h1]
          · show ({ st2 with heap := fun i =>
                if i = aid then some { a with target := env.query a.selector }
                else st2.heap i } : SetStateSt) = st2
            have hheap : (fun i =>
                if i = aid then some { a with target := env.query a.selector }
                else st2.heap i) = st2.heap := by
              funext i
              by_cases hi : i = aid
              · subst hi
                rw [if_pos rfl, ha2]
              · rw [if_neg hi]
            rw [hheap]
    | none =>
      rw [resolveTarget_fresh env st aid a ha ht] at h
      injection h with h1 h2
      have ha2 : st2.heap aid
          = some { a with target := env.query a.selector } := by
        rw [← h2]
        simp
      cases hd2 : env.doc t with
      | true =>
        exact resolveTarget_hit env st2 aid _ t ha2 (by simp [h1]) hd2
      | false =>
        rw [resolveTarget_detached env st2 aid _ t ha2 (by simp [h1]) hd2]
        refine Prod.ext ?_ ?_
        · simp [h1]
        · show ({ st2 with heap := fun i =>
              if i = aid then some { a with target := env.query a.selector }
              else st2.heap i } : SetStateSt) = st2
          have hheap : (fun i =>
              if i = aid then some { a with target := env.query a.selector }
              else st2.heap i) = st2.heap := by
            funext i
            by_cases hi : i = aid
            · subst hi
              rw [if_pos rfl, ha2]
            · rw [if_neg hi]
          rw [hheap]

/-- The result state of a resolveTarget call keeps the cache. -/
theorem resolve_cache_eq (env : SetStateEnv) (s : SetStateSt) (aid : Nat)
    (r : Option Nat) (s2 : SetStateSt)
    (h : SetStateAction.resolveTarget env s aid = (r, s2)) :
    s2.cache = s.cache := by
  have hf := (resolveTarget_frame env s aid).2.2.2.2.1
  rw [h] at hf
  exact hf

/-- The result state of a resolveTarget call keeps the class state. -/
theorem resolve_classes_eq (env : SetStateEnv) (s : SetStateSt) (aid : Nat)
    (r : Option Nat) (s2 : SetStateSt)
    (h : SetStateAction.resolveTarget env s aid = (r, s2)) :
    s2.classes = s.classes := by
  have hf := (resolveTarget_frame env s aid).1
  rw [h] at hf
  exact hf

/-- The result state of a resolveTarget call keeps the armed set. -/
theorem resolve_outsideActive_eq (env : SetStateEnv) (s : SetStateSt)
    (aid : Nat) (r : Option Nat) (s2 : SetStateSt)
    (h : SetStateAction.resolveTarget env s aid = (r, s2)) :
    s2.outsideActive = s.outsideActive := by
  have hf := (resolveTarget_frame env s aid).2.1
  rw [h] at hf
  exact hf

/-- The result state of a resolveTarget call keeps the byTarget index. -/
theorem resolve_byTarget_eq (env : SetStateEnv) (s : SetStateSt) (aid : Nat)
    (r : Option Nat) (s2 : SetStateSt)
    (h : SetStateAction.resolveTarget env s aid = (r, s2)) :
    s2.byTarget = s.byTarget := by
  have hf := (resolveTarget_frame env s aid).2.2.2.1
  rw [h] at hf
  exact hf

/-- isApplied returns the state produced by its inner resolveTarget
call: it only reads the class bit. -/
theorem isApplied_snd (env : SetStateEnv) (st : SetStateSt) (aid : Nat) :
    (SetStateAction.isApplied env st aid).2
      = (SetStateAction.resolveTarget env st aid).2 := by
  rcases hres : SetStateAction.resolveTarget env st aid with ⟨tq, s1⟩
  cases tq with
  | none => simp [SetStateAction.isApplied, hres]
  | some t =>
    cases hh : s1.heap aid with
    | none => simp [SetStateAction.isApplied, hres, hh]
    | some a => simp [SetStateAction.isApplied, hres, hh]

/-- The cache component is untouched by resolveTarget. -/
theorem resolveTarget_snd_cache (env : SetStateEnv) (s : SetStateSt)
    (aid : Nat) :
    ((SetStateAction.resolveTarget env s aid).2).cache = s.cache :=
  (resolveTarget_frame env s aid).2.2.2.2.1

/-- A successful getOrCreateAction leaves the trigger cached with the
returned action id. -/
theorem getOrCreate_cache (env : SetStateEnv) (st : SetStateSt)
    (tr aid2 : Nat) (st2 : SetStateSt)
    (h : SetStateController.getOrCreateAction env st tr = (some aid2, st2)) :
    st2.cache tr = some aid2 := by
  unfold SetStateController.getOrCreateAction at h
  split at h
  next aid0 hc =>
    injection h with h1 h2
    injection h1 with h1
    rw [← h2, hc, h1]
  next hc =>
    dsimp only at h
    split at h
    next hp =>
      injection h with h1 h2
      exact Option.noConfusion h1
    next d hp =>
      split at h
      next st2p hres =>
        injection h with h1 h2
        injection h1 with h1
        rw [← h2, resolve_cache_eq env _ _ _ _ hres]
        simp [h1]
      next tgt st2p hres =>
        split at h
        next hcond =>
          injection h with h1 h2
          injection h1 with h1
          rw [← h2]
          dsimp only
          rw [isApplied_snd, resolveTarget_snd_cache]
          dsimp only
          rw [resolve_cache_eq env _ _ _ _ hres]
          simp [h1]
        next hcond =>
          injection h with h1 h2
          injection h1 with h1
          rw [← h2]
          rw [isApplied_snd, resolveTarget_snd_cache]
          dsimp only
          rw [resolve_cache_eq env _ _ _ _ hres]
          simp [h1]

/-- Claim C9: an action is created at most once per trigger (a cache hit
returns the stored action and leaves the state untouched; after any
successful call the trigger is cached and a repeat call returns the same
action unchanged), and resolveTarget returns the cached node without
querying while it is in the document, re-running the selector query
exactly when no node is cached or the cached node left the document. -/
theorem claim9_action_and_target_caching (env : SetStateEnv)
    (st : SetStateSt) (tr aid : Nat) (a : SetStateAction) (t : Nat) :
    (st.cache tr = some aid →
        SetStateController.getOrCreateAction env st tr = (some aid, st))
    ∧ (∀ aid2 st2,
        SetStateController.getOrCreateAction env st tr = (some aid2, st2) →
        st2.cache tr = some aid2
        ∧ SetStateController.getOrCreateAction env st2 tr = (some aid2, st2))
    ∧ (st.heap aid = some a → a.target = some t → env.doc t = true →
        SetStateAction.resolveTarget env st aid = (some t, st))
    ∧ (st.heap aid = some a → a.target = none →
        SetStateAction.resolveTarget env st aid
          = (env.query a.selector,
             { st with heap := fun i =>
                if i = aid then some { a with target := env.query a.selector }
                else st.heap i }))
    ∧ (st.heap aid = some a → a.target = some t → env.doc t = false →
        SetStateAction.resolveTarget env st aid
          = (env.query a.selector,
             { st with heap := fun i =>
                if i = aid then some { a with target := env.query a.selector }
                else st.heap i })) := by
  refine ⟨?_, ?_, ?_, ?_, ?_⟩
  · intro hc
    simp [SetStateController.getOrCreateAction, hc]
  · intro aid2 st2 hcall
    have hc2 := getOrCreate_cache env st tr aid2 st2 hcall
    exact ⟨hc2, by simp [SetStateController.getOrCreateAction, hc2]⟩
  · exact fun ha ht hd => resolveTarget_hit env st aid a t ha ht hd
  · exact fun ha ht => resolveTarget_fresh env st aid a ha ht
  · exact fun ha ht hd => resolveTarget_detached env st aid a t ha ht hd

/-- Witness for claim C9: a concrete cache hit and a concrete in-document
resolution. -/
theorem claim9_witness :
    SetStateController.getOrCreateAction
        { doc := fun n => n = 1, query := fun _ => some 1,
          nodeContains := fun _ _ => false, attr := fun _ => none }
        { classes := fun _ _ => false,
          heap := fun i => if i = 0 then
              some { selector := "#p".toList, className := "x".toList,
                     outsideReset := false, target := some 1 }
            else none,
          nextId := 1, cache := fun tr => if tr = 7 then some 0 else none,
          byTarget := fun _ => [], outsideActive := [], suppress := [] } 7
      = (some 0,
        { classes := fun _ _ => false,
          heap := fun i => if i = 0 then
              some { selector := "#p".toList, className := "x".toList,
                     outsideReset := false, target := some 1 }
            else none,
          nextId := 1, cache := fun tr => if tr = 7 then some 0 else none,
          byTarget := fun _ => [], outsideActive := [], suppress := [] })
    ∧ SetStateAction.resolveTarget
        { doc := fun n => n = 1, query := fun _ => some 1,
          nodeContains := fun _ _ => false, attr := fun _ => none }
        { classes := fun _ _ => false,
          heap := fun i => if i = 0 then
              some { selector := "#p".toList, className := "x".toList,
                     outsideReset := false, target := some 1 }
            else none,
          nextId := 1, cache := fun tr => if tr = 7 then some 0 else none,
          byTarget := fun _ => [], outsideActive := [], suppress := [] } 0
      = (some 1,
        { classes := fun _ _ => false,
          heap := fun i => if i = 0 then
              some { selector := "#p".toList, className := "x".toList,
                     outsideReset := false, target := some 1 }
            else none,
          nextId := 1, cache := fun tr => if tr = 7 then some 0 else none,
          byTarget := fun _ => [], outsideActive := [], suppress := [] }) := by
  constructor
  · exact (claim9_action_and_target_caching _ _ 7 0
      { selector := "#p".toList, className := "x".toList,
        outsideReset := false, target := some 1 } 1).1 (by simp)
  · exact (claim9_action_and_target_caching _ _ 7 0
      { selector := "#p".toList, className := "x".toList,
        outsideReset := false, target := some 1 } 1).2.2.1
      (by simp) rfl (by simp)

/-- An element added to a JS Set is a member afterwards. -/
theorem mem_setAdd_self (l : List Nat) (x : Nat) : x ∈ setAdd l x := by
  unfold setAdd
  by_cases h : x ∈ l
  · rw [if_pos h]
    exact h
  · rw [if_neg h]
    simp

/-- resolveTarget ignores the class state: replacing it commutes with the
call. -/
theorem resolveTarget_set_classes (env : SetStateEnv) (st : SetStateSt)
    (aid : Nat) (X : Dom) :
    SetStateAction.resolveTarget env { st with classes := X } aid
      = ((SetStateAction.resolveTarget env st aid).1,
         { (SetStateAction.resolveTarget env st aid).2 with classes := X }) := by
  cases ha : st.heap aid with
  | none => simp [SetStateAction.resolveTarget, ha]
  | some a =>
    cases ht : a.target with
    | none => simp [SetStateAction.resolveTarget, ha, ht]
    | some t =>
      cases hd : env.doc t with
      | true => simp [SetStateAction.resolveTarget, ha, ht, hd]
      | false => simp [SetStateAction.resolveTarget, ha, ht, hd]

/-- Claim C4: a click that matches a trigger and successfully applies an
outside-reset action never resets that target in the same dispatch: at
the end of processing the click, the resolved target still carries the
class and sits in the armed set. -/
theorem claim4_trigger_click_keeps_class (env : SetStateEnv)
    (st : SetStateSt) (e : ClickEvent) (tr aid : Nat)
    (st1 st2 : SetStateSt) (cls : JStr) (tgt : Nat) (st3 : SetStateSt)
    (h1 : e.closestTrigger = some tr)
    (h2 : SetStateController.getOrCreateAction env st tr = (some aid, st1))
    (h3 : SetStateAction.apply env st1 aid = (true, st2))
    (h4 : (st2.heap aid).map (fun a => a.outsideReset) = some true)
    (h5 : (st2.heap aid).map (fun a => a.className) = some cls)
    (h6 : SetStateAction.resolveTarget env st2 aid = (some tgt, st3)) :
    (SetStateController.onDocClick env st e).classes tgt cls = true
    ∧ tgt ∈ (SetStateController.onDocClick env st e).outsideActive := by
  have happ := h3
  unfold SetStateAction.apply at h3
  split at h3
  next s0 hres0 =>
    injection h3 with h31 _
    exact Bool.noConfusion h31
  next t s0 hres0 =>
    split at h3
    next hh0 =>
      injection h3 with h31 _
      exact Bool.noConfusion h31
    next a hh0 =>
      injection h3 with h31 hst2
      have hidem := resolveTarget_idem env st1 s0 aid t hres0
      have hcomm := resolveTarget_set_classes env s0 aid
        (addClass s0.classes t a.className)
      rw [hidem] at hcomm
      dsimp only at hcomm
      rw [hst2] at hcomm
      rw [hcomm] at h6
      injection h6 with h61 h62
      injection h61 with h61
      have hheap2 : st2.heap aid = some a := by
        rw [← hst2]
        exact hh0
      have hor : a.outsideReset = true := by
        rw [hheap2] at h4
        injection h4 with h4
      have hcls : a.className = cls := by
        rw [hheap2] at h5
        injection h5 with h5
      have hclasses : st2.classes tgt cls = true := by
        rw [← hst2]
        show addClass s0.classes t a.className tgt cls = true
        unfold addClass
        rw [← h61, ← hcls]
        simp
      unfold SetStateController.onDocClick
      rw [h1]
      dsimp only
      unfold SetStateController.handleTrigger
      rw [h2]
      dsimp only
      rw [happ]
      dsimp only
      simp [hheap2, hor, hcomm, h61, hclasses, mem_setAdd_self]

/-- A concrete page for SetStateController witnesses: node 0 is the
trigger (attribute `#p,open,true`), node 1 the panel matched by `#p` and
present in the document, node 2 a node inside the panel, nodes 3 and 4
outside it. -/
def envW : SetStateEnv :=
  { doc := fun n => n = 1
    query := fun s => if s = "#p".toList then some 1 else none
    nodeContains := fun a b => a = 1 && b = 2
    attr := fun n => if n = 0 then some "#p,open,true".toList else none }

/-- A freshly initialised controller over a page with no classes set. -/
def stW : SetStateSt := SetStateController.initState (fun _ _ => false)

/-- Witness for claim C4 on the concrete page. -/
theorem claim4_witness :
    (SetStateController.onDocClick envW stW
        { targetNode := 4, closestTrigger := some 0, closestReset := none }).classes
          1 "open".toList = true
    ∧ 1 ∈ (SetStateController.onDocClick envW stW
        { targetNode := 4, closestTrigger := some 0,
          closestReset := none }).outsideActive := by
  refine claim4_trigger_click_keeps_class envW stW _ 0 0
    (SetStateController.getOrCreateAction envW stW 0).2
    (SetStateAction.apply envW
      (SetStateController.getOrCreateAction envW stW 0).2 0).2
    "open".toList 1
    (SetStateAction.resolveTarget envW
      (SetStateAction.apply envW
        (SetStateController.getOrCreateAction envW stW 0).2 0).2 0).2
    rfl ?_ ?_ ?_ ?_ ?_
  · exact Prod.ext rfl rfl
  · exact Prod.ext rfl rfl
  · rfl
  · rfl
  · exact Prod.ext rfl rfl

/-- The first click of the outside-reset scenario: a click dispatched to a
trigger on a freshly initialised controller. -/
def setStateClick1 (env : SetStateEnv) (classes0 : Dom) (tr n1 : Nat) :
    SetStateSt :=
  SetStateController.onDocClick env (SetStateController.initState classes0)
    { targetNode := n1, closestTrigger := some tr, closestReset := none }

/-- A later click that matches neither a trigger nor a reset element,
dispatched after the zero-delay suppression timers have fired. -/
def setStateLaterClick (env : SetStateEnv) (s : SetStateSt) (n : Nat) :
    SetStateSt :=
  SetStateController.onDocClick env (SetStateController.timersFire s)
    { targetNode := n, closestTrigger := none, closestReset := none }

/-- Claim C3: on a fresh controller, a trigger click with an
outside-reset directive and a resolvable, attached target adds the class
and arms the target; a later click inside the armed target keeps the
class and the armed state; a later click fully outside the target
removes the class and disarms it. -/
theorem claim3_outside_reset_scenario (env : SetStateEnv) (classes0 : Dom)
    (tr tgt n1 n2 n3 : Nat) (raw : JStr) (d : SetStateDirective)
    (hattr : env.attr tr = some raw)
    (hparse : SetStateParser.parse raw = some d)
    (hor : d.outsideReset = true)
    (hq : env.query d.selector = some tgt)
    (hdoc : env.doc tgt = true)
    (hc0 : classes0 tgt d.className = false)
    (hin : env.nodeContains tgt n2 = true)
    (hout : env.nodeContains tgt n3 = false) :
    (setStateClick1 env classes0 tr n1).classes tgt d.className = true
    ∧ tgt ∈ (setStateClick1 env classes0 tr n1).outsideActive
    ∧ (setStateLaterClick env (setStateClick1 env classes0 tr n1) n2).classes
        tgt d.className = true
    ∧ tgt ∈ (setStateLaterClick env (setStateClick1 env classes0 tr n1)
        n2).outsideActive
    ∧ (setStateLaterClick env
        (setStateLaterClick env (setStateClick1 env classes0 tr n1) n2)
        n3).classes tgt d.className = false
    ∧ tgt ∉ (setStateLaterClick env
        (setStateLaterClick env (setStateClick1 env classes0 tr n1) n2)
        n3).outsideActive := by
  simp [setStateClick1, setStateLaterClick,
    SetStateController.onDocClick, SetStateController.handleTrigger,
    SetStateController.handleOutside, SetStateController.resetByTarget,
    SetStateController.getOrCreateAction, SetStateController.initState,
    SetStateController.timersFire,
    SetStateAction.apply, SetStateAction.reset, SetStateAction.isApplied,
    SetStateAction.resolveTarget,
    hattr, hparse, hq, hdoc, hc0, hor, hin, hout,
    setAdd, setDelete, addClass, removeClass]

/-- Witness for claim C3 on the concrete page: trigger 0 opens panel 1;
a click on node 2 (inside the panel) keeps it open; a click on node 3
(outside) closes and disarms it. -/
theorem claim3_witness :
    (setStateClick1 envW (fun _ _ => false) 0 4).classes 1 "open".toList = true
    ∧ 1 ∈ (setStateClick1 envW (fun _ _ => false) 0 4).outsideActive
    ∧ (setStateLaterClick envW (setStateClick1 envW (fun _ _ => false) 0 4)
        2).classes 1 "open".toList = true
    ∧ 1 ∈ (setStateLaterClick envW (setStateClick1 envW (fun _ _ => false) 0 4)
        2).outsideActive
    ∧ (setStateLaterClick envW
        (setStateLaterClick envW (setStateClick1 envW (fun _ _ => false) 0 4) 2)
        3).classes 1 "open".toList = false
    ∧ 1 ∉ (setStateLaterClick envW
        (setStateLaterClick envW (setStateClick1 envW (fun _ _ => false) 0 4) 2)
        3).outsideActive :=
  claim3_outside_reset_scenario envW (fun _ _ => false) 0 1 4 2 3
    "#p,open,true".toList
    { selector := "#p".toList, className := "open".toList, outsideReset := true }
    rfl (by decide) rfl rfl rfl rfl rfl rfl
